import Mathlib

/-!
Verification of the data-driven rendering engine of the ipm-app-documentation
repository: per-record page/route generation, the schema-to-markup renderer,
and the interactive diagram geometry and popup runtime.

Each definition is a shallow embedding of the corresponding source function.
Pixel coordinates of the client-side runtime are modelled over `ℚ`.
-/

set_option autoImplicit false

namespace IpmDoc

/-! ## Diagram geometry (src/components/architecture_diagram.py, `edgePoint`) -/

/-- Shallow embedding of the JS function `edgePoint(cx, cy, w, h, tx, ty)`:
boundary intersection of the line from the node centre `(cx, cy)` towards the
target centre `(tx, ty)` with the node's rectangle of width `w`, height `h`. -/
def edgePoint (cx cy w h tx ty : ℚ) : ℚ × ℚ :=
  let dx := tx - cx
  let dy := ty - cy
  let absDx := |dx|
  let absDy := |dy|
  let hw := w / 2
  let hh := h / 2
  if absDx * hh > absDy * hw then
    let sign : ℚ := if dx > 0 then 1 else -1
    (cx + sign * hw, cy + dy * hw / absDx)
  else
    let sign : ℚ := if dy > 0 then 1 else -1
    (cx + dx * hh / absDy, cy + sign * hh)

/-! ## Data model (EndpointRecord, spec section 3; record fields as read by the
renderer in src/components/endpoint_detail_renderer.py and src/pages) -/

/-- One cell of a request-body row tuple. Rows are Python tuples whose
`required` entry may be a boolean while the other entries are strings. -/
inductive Field where
  | str (s : String)
  | booly (b : Bool)
deriving DecidableEq

/-- Python str() formatting of a cell, as used by the f-string row templates. -/
def cellText : Field → String
  | .str s => s
  | .booly b => if b then "True" else "False"

/-- Python truthiness of a cell, as used by `"Yes" if required else "No"`. -/
def truthy : Field → Bool
  | .str s => s ≠ ""
  | .booly b => b

/-- An EndpointRecord: the dict shape consumed by the renderer and pages.
Optional fields model keys accessed through `dict.get` with a default. -/
structure Endpoint where
  id : String
  method : String
  path : String
  title : String
  summary : String
  descriptionLong : Option String
  tag : String
  subcategory : String
  auth : Option String
  complexity : Option String
  sourceFile : Option String
  sourceLine : Option Nat
  pathParams : List (String × String × String)
  queryParams : List (String × String × String)
  requestBody : List (List Field)
  responseFields : List (String × String × String)
  responseStatus : Option Nat
  statusCodes : List (Nat × String)
deriving DecidableEq

/-! ## Schema renderer (src/components/endpoint_detail_renderer.py)

The output of `render_endpoint_detail` is modelled as a list of fragments,
one fragment per `st.button` / `st.markdown` call (tables carry their rows;
the parameter tables are tagged with the section they belong to, which in the
real markup is determined by the heading the table follows). -/

/-- One emitted display fragment. -/
inductive Frag where
  | backButton
  | pathHeader (method path : String)
  | titleLine (title : String)
  | metaRow (auth : Option String) (prov : String)
  | divider
  | sectionHeading (name : String)
  | mdBody (text : String)
  | paramsTable (kind : String) (rows : List (String × String × String))
  | bodyTable (rows : List (String × String × String × String))
  | responseHeading (status : Nat)
  | statusTable (rows : List (Nat × String))
  | relatedItem (method path title : String)
deriving DecidableEq

/-- The provenance text `f"{ep.get('source_file','')}:{ep.get('source_line','')}"`. -/
def provText (ep : Endpoint) : String :=
  ep.sourceFile.getD "" ++ ":" ++
    (match ep.sourceLine with
     | some n => toString n
     | none => "")

/-- `ep.get("description_long", ep.get("summary", ""))`. -/
def descOf (ep : Endpoint) : String :=
  ep.descriptionLong.getD ep.summary

/-- One request-body row: `len(item) == 4` renders Yes/No for `required`,
any other shape falls back to `item[0], item[1], item[-1]` with `-` in the
required column; rows too short for that indexing raise (modelled as `none`). -/
def renderBodyRow (item : List Field) : Option (String × String × String × String) :=
  match item with
  | [n, t, r, d] =>
      some (cellText n, cellText t, if truthy r then "Yes" else "No", cellText d)
  | _ =>
      match item.head?, item[1]?, item.getLast? with
      | some n, some t, some d => some (cellText n, cellText t, "-", cellText d)
      | _, _, _ => none

/-- Sequentially render all request-body rows, aborting at the first failing
row (the Python loop raises there). -/
def renderBodyRows : List (List Field) → Option (List (String × String × String × String))
  | [] => some []
  | r :: rs =>
      match renderBodyRow r, renderBodyRows rs with
      | some row, some rows => some (row :: rows)
      | _, _ => none

/-- Insertion into a list sorted by status code, modelling Python
`sorted(status_codes.items())` (codes are unique dict keys). -/
def insertByCode (x : Nat × String) : List (Nat × String) → List (Nat × String)
  | [] => [x]
  | y :: ys => if x.1 ≤ y.1 then x :: y :: ys else y :: insertByCode x ys

/-- `sorted(status_codes.items())` by numeric code. -/
def sortByCode (l : List (Nat × String)) : List (Nat × String) :=
  l.foldr insertByCode []

/-- The related-endpoints comprehension: catalog records with the same tag and
subcategory and a different id, in catalog order. -/
def relatedOf (catalog : List Endpoint) (ep : Endpoint) : List Endpoint :=
  catalog.filter (fun e => e.tag == ep.tag && e.subcategory == ep.subcategory && e.id != ep.id)

/-- Description section: emitted only when the resolved description is truthy. -/
def descBlock (ep : Endpoint) : List Frag :=
  if descOf ep ≠ "" then [.sectionHeading "Description", .mdBody (descOf ep)] else []

/-- Path-parameters section. -/
def pathParamsBlock (ep : Endpoint) : List Frag :=
  if ep.pathParams ≠ [] then
    [.sectionHeading "Path Parameters", .paramsTable "path" ep.pathParams]
  else []

/-- Query-parameters section. -/
def queryParamsBlock (ep : Endpoint) : List Frag :=
  if ep.queryParams ≠ [] then
    [.sectionHeading "Query Parameters", .paramsTable "query" ep.queryParams]
  else []

/-- Request-body section, given the already-rendered rows. -/
def bodyBlock (ep : Endpoint) (rows : List (String × String × String × String)) : List Frag :=
  if ep.requestBody ≠ [] then [.sectionHeading "Request Body", .bodyTable rows] else []

/-- Response section, labelled `ep.get("response_status", 200)`. -/
def responseBlock (ep : Endpoint) : List Frag :=
  if ep.responseFields ≠ [] then
    [.responseHeading (ep.responseStatus.getD 200), .paramsTable "response" ep.responseFields]
  else []

/-- Status-codes section, rows sorted ascending by code. -/
def statusBlock (ep : Endpoint) : List Frag :=
  if ep.statusCodes ≠ [] then
    [.sectionHeading "Status Codes", .statusTable (sortByCode ep.statusCodes)]
  else []

/-- Related-endpoints section, only for `complexity == "complex"` records. -/
def relatedBlock (catalog : List Endpoint) (ep : Endpoint) : List Frag :=
  if ep.complexity.getD "simple" = "complex" then
    let rel := relatedOf catalog ep
    if rel ≠ [] then
      .sectionHeading "Related Endpoints" ::
        rel.map (fun r => .relatedItem r.method r.path r.title)
    else []
  else []

/-- Shallow embedding of `render_endpoint_detail(ep)`; `catalog` stands for the
global `ENDPOINTS` list it reads for the related-endpoints computation.
`none` models an uncaught exception while rendering request-body rows. -/
def render_endpoint_detail (catalog : List Endpoint) (ep : Endpoint) : Option (List Frag) :=
  match renderBodyRows ep.requestBody with
  | none => none
  | some rows =>
      some ([Frag.backButton, .pathHeader ep.method ep.path, .titleLine ep.title,
             .metaRow ep.auth (provText ep), .divider]
        ++ descBlock ep ++ pathParamsBlock ep ++ queryParamsBlock ep
        ++ bodyBlock ep rows ++ responseBlock ep ++ statusBlock ep
        ++ relatedBlock catalog ep)

/-! ## Route generator (src/pages/endpoint_pages.py) -/

/-- An `st.Page` as built by `build_endpoint_pages`: the page callable is the
closure returned by `_make_page_fn(ep["id"])`, which captures only the id, so a
handle is fully described by that id plus its title and `url_path`. -/
structure PageHandle where
  epId : String
  title : String
  urlPath : String
deriving DecidableEq

/-- The `st.Page(...)` construction for one record:
`_make_page_fn(ep["id"])`, `title=ep["title"]`, `url_path=f"ep-{ep['id']}"`. -/
def mkPageHandle (ep : Endpoint) : PageHandle :=
  ⟨ep.id, ep.title, "ep-" ++ ep.id⟩

/-- Modelled from the spec: `get_endpoint_by_id` lives in `data/endpoints.py`,
which is not part of the sources; per spec section 4.1 a PageHandle resolves
its EndpointRecord by id in the catalog at invocation time, so the lookup is
the first catalog record whose id matches, `none` when the id is absent. -/
def get_endpoint_by_id (catalog : List Endpoint) (eid : String) : Option Endpoint :=
  catalog.find? (fun e => e.id == eid)

/-- Python dict assignment `by_id[k] = v`: replaces the value of an existing
key in place, otherwise appends the binding (insertion order preserved). -/
def dictInsert {α : Type} (d : List (String × α)) (k : String) (v : α) : List (String × α) :=
  if d.any (fun p => p.1 == k) then
    d.map (fun p => if p.1 == k then (k, v) else p)
  else d ++ [(k, v)]

/-- Python dict lookup. -/
def dictLookup {α : Type} (d : List (String × α)) (k : String) : Option α :=
  (d.find? (fun p => p.1 == k)).map (fun p => p.2)

/-- One iteration of the `build_endpoint_pages` loop:
`pages.append(page); by_id[ep["id"]] = page`. -/
def buildStep (acc : List PageHandle × List (String × PageHandle)) (ep : Endpoint) :
    List PageHandle × List (String × PageHandle) :=
  let page := mkPageHandle ep
  (acc.1 ++ [page], dictInsert acc.2 ep.id page)

/-- Shallow embedding of `build_endpoint_pages()`: one `st.Page` per record in
catalog order, plus the id → page dict. -/
def build_endpoint_pages (catalog : List Endpoint) :
    List PageHandle × List (String × PageHandle) :=
  catalog.foldl buildStep ([], [])

/-- Outcome of invoking a page function: the not-found path
(`st.error` + `st.stop`), a successful render, or an uncaught render error. -/
inductive PageOutcome where
  | notFound
  | rendered (frags : List Frag)
  | renderFailure
deriving DecidableEq

/-- The outcome of `render_endpoint_detail(ep)` for a resolved record. -/
def pageContentFor (catalog : List Endpoint) (ep : Endpoint) : PageOutcome :=
  match render_endpoint_detail catalog ep with
  | some frags => .rendered frags
  | none => .renderFailure

/-- Invoking the closure built by `_make_page_fn`: resolve the captured id in
the catalog as it is at invocation time; absent id reports not-found and stops,
otherwise delegate to `render_endpoint_detail`. -/
def invokePage (pg : PageHandle) (catalog : List Endpoint) : PageOutcome :=
  match get_endpoint_by_id catalog pg.epId with
  | none => .notFound
  | some ep => pageContentFor catalog ep

/-! ## Listing search/filter (src/pages/all_endpoints.py, `_matches`) -/

/-- Is `needle` a prefix of `hay` (character lists)? -/
def matchHere : List Char → List Char → Bool
  | [], _ => true
  | _ :: _, [] => false
  | c :: cs, h :: hs => c == h && matchHere cs hs

/-- Does `needle` occur contiguously inside the character list? -/
def containsSeq (needle : List Char) : List Char → Bool
  | [] => matchHere needle []
  | h :: hs => matchHere needle (h :: hs) || containsSeq needle hs

/-- Python `needle in hay` on strings. -/
def strContains (hay needle : String) : Bool :=
  containsSeq needle.data hay.data

/-- Python `str.lower()` (character-wise lowering, as for the ASCII content of
the catalog). -/
def toLowerStr (s : String) : String :=
  ⟨s.data.map Char.toLower⟩

/-- A character stripped by Python `str.strip()`. -/
def isPySpace (c : Char) : Bool :=
  c == ' ' || c == '\t' || c == '\n' || c == '\r' || c == '\x0B' || c == '\x0C'

/-- Python `str.strip()`. -/
def stripStr (s : String) : String :=
  ⟨(((s.data.dropWhile isPySpace).reverse.dropWhile isPySpace).reverse)⟩

/-- The lowered haystack
`f"{ep['path']} {ep['title']} {ep.get('summary','')} {ep.get('description_long','')}".lower()`. -/
def haystackOf (ep : Endpoint) : String :=
  toLowerStr (ep.path ++ " " ++ ep.title ++ " " ++ ep.summary ++ " "
    ++ ep.descriptionLong.getD "")

/-- Shallow embedding of `_matches(ep)` with the page-level
`search_lower = search.strip().lower()` passed in as `searchLower`. -/
def matchesRecord (methodFilter searchLower : String) (ep : Endpoint) : Bool :=
  if methodFilter ≠ "All" ∧ ep.method ≠ methodFilter then false
  else if searchLower ≠ "" then strContains (haystackOf ep) searchLower
  else true

/-- `_matches` together with the stripping and lowering of the raw search box
text done at page level (line `search_lower = search.strip().lower()`). -/
def pageMatches (methodFilter search : String) (ep : Endpoint) : Bool :=
  matchesRecord methodFilter (toLowerStr (stripStr search)) ep

/-- Written from the words of the spec for comparison: a record matches a text
query iff the query (case-insensitively) is a substring of the concatenation
of path, title, summary, and long description; method "All" matches all,
otherwise the method must be exactly the filter; both compose with AND. -/
def matchesSpecConcat (methodFilter search : String) (ep : Endpoint) : Bool :=
  (methodFilter == "All" || ep.method == methodFilter) &&
    strContains
      (toLowerStr (ep.path ++ ep.title ++ ep.summary ++ ep.descriptionLong.getD ""))
      (toLowerStr search)

/-! ## Popup placement (src/components/architecture_diagram.py, `showPopup`) -/

/-- The placement computation of `showPopup`: node box relative to the diagram
container (`nodeLeft = nr.left - dr.left`, width `nodeWidth`, top `nodeTop`),
container size `cw × ch`; returns the final `(left, top)` style values. -/
def showPopupPlacement (nodeLeft nodeTop nodeWidth cw ch : ℚ) : ℚ × ℚ :=
  let left0 := nodeLeft + nodeWidth + 12
  let left1 := if left0 + 480 > cw then nodeLeft - 490 else left0
  let left2 := if left1 < 0 then nodeLeft else left1
  let top0 := nodeTop
  let top1 := if top0 + 400 > ch then ch - 410 else top0
  let top2 := if top1 < 0 then 0 else top1
  (left2, top2)

/-! ## Popup hover-intent runtime (src/components/architecture_diagram.py)

The client runtime is single-threaded and event-driven; its shared state is
`hoverNode`, `hoverPopup` and `activePopup`, and each `mouseleave` schedules a
150ms timer whose callback re-checks the hover state. Popups are identified by
their node (each node shows its own popup). `hideCount` instruments how many
times a timer callback actually transitioned the active popup to hidden. -/

/-- The grace delay of `hidePopup` in milliseconds. -/
def GRACE : Nat := 150

/-- The diagram runtime state: current hover flags, the single active-popup
slot, the pending `setTimeout` fire times, and the hide instrumentation. -/
structure DiagState where
  hoverNode : Option Nat
  hoverPopup : Bool
  activePopup : Option Nat
  timers : List Nat
  hideCount : Nat
deriving DecidableEq

/-- The body of the `setTimeout` callback in `hidePopup`:
`if (!hoverNode && !hoverPopup && activePopup) hide`. -/
def fireHide (s : DiagState) : DiagState :=
  if s.hoverNode = none ∧ s.hoverPopup = false ∧ s.activePopup ≠ none then
    { s with activePopup := none, hideCount := s.hideCount + 1 }
  else s

/-- Run `k` pending timer callbacks in sequence. -/
def fireK : Nat → DiagState → DiagState
  | 0, s => s
  | k + 1, s => fireK k (fireHide s)

/-- Fire every pending timer due at or before time `t`. -/
def fireDue (s : DiagState) (t : Nat) : DiagState :=
  let due := s.timers.filter (fun x => x ≤ t)
  let rest := s.timers.filter (fun x => ¬ x ≤ t)
  { fireK due.length s with timers := rest }

/-- A pointer event on the diagram. -/
inductive PtrEvent where
  | enterNode (n : Nat)
  | leaveNode
  | enterPopup
  | leavePopup
deriving DecidableEq

/-- The event handlers: `mouseenter` on a node sets `hoverNode` and shows its
popup (replacing any other active popup); `mouseleave` clears the flag and
calls `hidePopup`, which schedules a timer for `t + GRACE`; popup hover events
maintain `hoverPopup`, with `mouseleave` also calling `hidePopup`. -/
def handleEvent (s : DiagState) (t : Nat) : PtrEvent → DiagState
  | .enterNode n => { s with hoverNode := some n, activePopup := some n }
  | .leaveNode => { s with hoverNode := none, timers := s.timers ++ [t + GRACE] }
  | .enterPopup => { s with hoverPopup := true }
  | .leavePopup => { s with hoverPopup := false, timers := s.timers ++ [t + GRACE] }

/-- Process timestamped pointer events in order on the single event loop:
before each event, any timers due by then have fired. -/
def runEvents (s : DiagState) : List (Nat × PtrEvent) → DiagState
  | [] => s
  | (t, e) :: rest => runEvents (handleEvent (fireDue s t) t e) rest

/-- Let every remaining pending timer fire. -/
def flushTimers (s : DiagState) : DiagState :=
  { fireK s.timers.length s with timers := [] }

/-- The initial runtime state. -/
def initDiag : DiagState := ⟨none, false, none, [], 0⟩

/-- Run a timestamped pointer-event trace from the initial state and then let
all still-pending grace timers fire. -/
def runTrace (evts : List (Nat × PtrEvent)) : DiagState :=
  flushTimers (runEvents initDiag evts)

/-! ## Theorems: diagram geometry and popup runtime -/



lemma edgePoint_eq_vertical (cx cy w h tx ty : ℚ)
    (hc : |ty - cy| * (w / 2) < |tx - cx| * (h / 2)) :
    edgePoint cx cy w h tx ty =
      (cx + (if 0 < tx - cx then 1 else -1) * (w / 2),
       cy + (ty - cy) * (w / 2) / |tx - cx|) := by
  simp only [edgePoint]
  rw [if_pos hc]

lemma edgePoint_eq_horizontal (cx cy w h tx ty : ℚ)
    (hc : ¬ (|ty - cy| * (w / 2) < |tx - cx| * (h / 2))) :
    edgePoint cx cy w h tx ty =
      (cx + (tx - cx) * (h / 2) / |ty - cy|,
       cy + (if 0 < ty - cy then 1 else -1) * (h / 2)) := by
  simp only [edgePoint]
  rw [if_neg hc]

lemma cond_dx_ne (cx cy w h tx ty : ℚ) (hw : 0 ≤ w)
    (hc : |ty - cy| * (w / 2) < |tx - cx| * (h / 2)) :
    tx - cx ≠ 0 := by
  intro h0
  rw [h0, abs_zero, zero_mul] at hc
  nlinarith [abs_nonneg (ty - cy)]

lemma notcond_dy_ne (cx cy w h tx ty : ℚ) (hh : 0 < h)
    (hne : (tx, ty) ≠ (cx, cy))
    (hc : ¬ (|ty - cy| * (w / 2) < |tx - cx| * (h / 2))) :
    ty - cy ≠ 0 := by
  intro h0
  rw [h0, abs_zero, zero_mul] at hc
  push_neg at hc
  have hdx : |tx - cx| = 0 := by nlinarith [abs_nonneg (tx - cx)]
  have h1 : tx = cx := by
    have := abs_eq_zero.mp hdx
    linarith
  have h2 : ty = cy := by linarith [sub_eq_zero.mp h0]
  exact hne (by rw [h1, h2])



lemma abs_if_sign_mul (c : Prop) [Decidable c] (x : ℚ) (hx : 0 < x) :
    |(if c then (1 : ℚ) else -1) * x| = x := by
  split_ifs <;> simp [abs_of_pos hx]

lemma collinear_helper (dx dy hw : ℚ) (hdx : dx ≠ 0) :
    (dy * hw / |dx|) * dx = ((if 0 < dx then (1 : ℚ) else -1) * hw) * dy := by
  rcases lt_or_gt_of_ne hdx with hneg | hpos
  · rw [if_neg (by linarith), abs_of_neg hneg, div_neg, neg_mul, div_mul_cancel₀ _ hdx]
    ring
  · rw [if_pos hpos, abs_of_pos hpos, div_mul_cancel₀ _ hdx]
    ring

theorem C3_edgePoint_boundary (cx cy w h tx ty : ℚ) (hw : 0 < w) (hh : 0 < h) :
    ((|ty - cy| * (w / 2) < |tx - cx| * (h / 2) →
        edgePoint cx cy w h tx ty =
          (cx + (if 0 < tx - cx then 1 else -1) * (w / 2),
           cy + (ty - cy) * (w / 2) / |tx - cx|) ∧
        |(edgePoint cx cy w h tx ty).1 - cx| = w / 2) ∧
     (¬ (|ty - cy| * (w / 2) < |tx - cx| * (h / 2)) →
        edgePoint cx cy w h tx ty =
          (cx + (tx - cx) * (h / 2) / |ty - cy|,
           cy + (if 0 < ty - cy then 1 else -1) * (h / 2)) ∧
        |(edgePoint cx cy w h tx ty).2 - cy| = h / 2) ∧
     ((tx, ty) ≠ (cx, cy) →
        ((edgePoint cx cy w h tx ty).2 - cy) * (tx - cx)
          = ((edgePoint cx cy w h tx ty).1 - cx) * (ty - cy))) ∧
    edgePoint 100 100 40 20 200 100 = (120, 100) := by
  constructor
  · refine ⟨?_, ?_, ?_⟩
    · intro hc
      refine ⟨edgePoint_eq_vertical cx cy w h tx ty hc, ?_⟩
      rw [edgePoint_eq_vertical cx cy w h tx ty hc]
      have e1 : cx + (if 0 < tx - cx then (1 : ℚ) else -1) * (w / 2) - cx
          = (if 0 < tx - cx then (1 : ℚ) else -1) * (w / 2) := by ring
      show |cx + (if 0 < tx - cx then (1 : ℚ) else -1) * (w / 2) - cx| = w / 2
      rw [e1, abs_if_sign_mul _ _ (by linarith)]
    · intro hc
      refine ⟨edgePoint_eq_horizontal cx cy w h tx ty hc, ?_⟩
      rw [edgePoint_eq_horizontal cx cy w h tx ty hc]
      have e1 : cy + (if 0 < ty - cy then (1 : ℚ) else -1) * (h / 2) - cy
          = (if 0 < ty - cy then (1 : ℚ) else -1) * (h / 2) := by ring
      show |cy + (if 0 < ty - cy then (1 : ℚ) else -1) * (h / 2) - cy| = h / 2
      rw [e1, abs_if_sign_mul _ _ (by linarith)]
    · intro hne
      by_cases hc : |ty - cy| * (w / 2) < |tx - cx| * (h / 2)
      · have hdx := cond_dx_ne cx cy w h tx ty (le_of_lt hw) hc
        rw [edgePoint_eq_vertical cx cy w h tx ty hc]
        show (cy + (ty - cy) * (w / 2) / |tx - cx| - cy) * (tx - cx)
            = (cx + (if 0 < tx - cx then (1 : ℚ) else -1) * (w / 2) - cx) * (ty - cy)
        have e1 : cy + (ty - cy) * (w / 2) / |tx - cx| - cy
            = (ty - cy) * (w / 2) / |tx - cx| := by ring
        have e2 : cx + (if 0 < tx - cx then (1 : ℚ) else -1) * (w / 2) - cx
            = (if 0 < tx - cx then (1 : ℚ) else -1) * (w / 2) := by ring
        rw [e1, e2]
        exact collinear_helper (tx - cx) (ty - cy) (w / 2) hdx
      · have hdy := notcond_dy_ne cx cy w h tx ty hh hne hc
        rw [edgePoint_eq_horizontal cx cy w h tx ty hc]
        show (cy + (if 0 < ty - cy then (1 : ℚ) else -1) * (h / 2) - cy) * (tx - cx)
            = (cx + (tx - cx) * (h / 2) / |ty - cy| - cx) * (ty - cy)
        have e1 : cy + (if 0 < ty - cy then (1 : ℚ) else -1) * (h / 2) - cy
            = (if 0 < ty - cy then (1 : ℚ) else -1) * (h / 2) := by ring
        have e2 : cx + (tx - cx) * (h / 2) / |ty - cy| - cx
            = (tx - cx) * (h / 2) / |ty - cy| := by ring
        rw [e1, e2]
        exact (collinear_helper (ty - cy) (tx - cx) (h / 2) hdy).symm
  · norm_num [edgePoint]



theorem C10_edgePoint_division_safety (cx cy w h tx ty : ℚ) (hw : 0 < w) (hh : 0 < h) :
    ((tx, ty) ≠ (cx, cy) →
        (|ty - cy| * (w / 2) < |tx - cx| * (h / 2) → tx - cx ≠ 0) ∧
        (¬ (|ty - cy| * (w / 2) < |tx - cx| * (h / 2)) → ty - cy ≠ 0) ∧
        ((|(edgePoint cx cy w h tx ty).1 - cx| = w / 2 ∧
          |(edgePoint cx cy w h tx ty).2 - cy| ≤ h / 2) ∨
         (|(edgePoint cx cy w h tx ty).2 - cy| = h / 2 ∧
          |(edgePoint cx cy w h tx ty).1 - cx| ≤ w / 2))) ∧
    (tx = cx → ty = cy →
        ¬ (|ty - cy| * (w / 2) < |tx - cx| * (h / 2)) ∧ |ty - cy| = 0) := by
  constructor
  · intro hne
    refine ⟨fun hc => cond_dx_ne cx cy w h tx ty (le_of_lt hw) hc,
            fun hc => notcond_dy_ne cx cy w h tx ty hh hne hc, ?_⟩
    by_cases hc : |ty - cy| * (w / 2) < |tx - cx| * (h / 2)
    · left
      have hdx := cond_dx_ne cx cy w h tx ty (le_of_lt hw) hc
      rw [edgePoint_eq_vertical cx cy w h tx ty hc]
      constructor
      · have e1 : cx + (if 0 < tx - cx then (1 : ℚ) else -1) * (w / 2) - cx
            = (if 0 < tx - cx then (1 : ℚ) else -1) * (w / 2) := by ring
        show |cx + (if 0 < tx - cx then (1 : ℚ) else -1) * (w / 2) - cx| = w / 2
        rw [e1, abs_if_sign_mul _ _ (by linarith)]
      · have e1 : cy + (ty - cy) * (w / 2) / |tx - cx| - cy
            = (ty - cy) * (w / 2) / |tx - cx| := by ring
        show |cy + (ty - cy) * (w / 2) / |tx - cx| - cy| ≤ h / 2
        rw [e1, abs_div, abs_mul, abs_abs, abs_of_pos (show (0 : ℚ) < w / 2 by linarith)]
        rw [div_le_iff₀ (abs_pos.mpr hdx)]
        linarith
    · right
      have hdy := notcond_dy_ne cx cy w h tx ty hh hne hc
      rw [edgePoint_eq_horizontal cx cy w h tx ty hc]
      constructor
      · have e1 : cy + (if 0 < ty - cy then (1 : ℚ) else -1) * (h / 2) - cy
            = (if 0 < ty - cy then (1 : ℚ) else -1) * (h / 2) := by ring
        show |cy + (if 0 < ty - cy then (1 : ℚ) else -1) * (h / 2) - cy| = h / 2
        rw [e1, abs_if_sign_mul _ _ (by linarith)]
      · have e1 : cx + (tx - cx) * (h / 2) / |ty - cy| - cx
            = (tx - cx) * (h / 2) / |ty - cy| := by ring
        show |cx + (tx - cx) * (h / 2) / |ty - cy| - cx| ≤ w / 2
        rw [e1, abs_div, abs_mul, abs_abs, abs_of_pos (show (0 : ℚ) < h / 2 by linarith)]
        rw [div_le_iff₀ (abs_pos.mpr hdy)]
        push_neg at hc
        linarith
  · intro h1 h2
    rw [h1, h2]
    simp



theorem C4_hover_intent (n t1 t2 : Nat) (s : DiagState)
    (h1 : 0 < t1) (h2 : t1 < t2) (h3 : t2 < t1 + GRACE) :
    (runTrace [(0, .enterNode n), (t1, .leaveNode), (t2, .enterNode n)]
        = { hoverNode := some n, hoverPopup := false, activePopup := some n,
            timers := [], hideCount := 0 } ∧
     runTrace [(0, .enterNode n), (t1, .leaveNode), (t2, .enterPopup)]
        = { hoverNode := none, hoverPopup := true, activePopup := some n,
            timers := [], hideCount := 0 } ∧
     runTrace [(0, .enterNode n), (t1, .leaveNode)]
        = { hoverNode := none, hoverPopup := false, activePopup := none,
            timers := [], hideCount := 1 }) ∧
    ((s.hoverNode ≠ none ∨ s.hoverPopup = true) → fireHide s = s) := by
  have hnotdue : ¬ (t1 + GRACE ≤ t2) := by omega
  constructor
  · refine ⟨?_, ?_, ?_⟩
    · simp [runTrace, runEvents, handleEvent, fireDue, initDiag, flushTimers,
        List.filter, hnotdue, fireK, fireHide]
    · simp [runTrace, runEvents, handleEvent, fireDue, initDiag, flushTimers,
        List.filter, hnotdue, fireK, fireHide]
    · simp [runTrace, runEvents, handleEvent, fireDue, initDiag, flushTimers,
        List.filter, fireK, fireHide]
  · intro hcur
    unfold fireHide
    rcases hcur with hn | hp
    · rw [if_neg]
      intro hcontr
      exact hn hcontr.1
    · rw [if_neg]
      intro hcontr
      rw [hp] at hcontr
      exact absurd hcontr.2.1 (by decide)



theorem C5_cex_popup_overflows_right :
    (showPopupPlacement 450 30 130 500 620).1 + 480 > 500 := by
  norm_num [showPopupPlacement]

theorem C5_popup_placement (nl nt nw cw ch : ℚ)
    (hnl : 0 ≤ nl) (hnt : 0 ≤ nt) (hnw : 0 ≤ nw) :
    (0 ≤ (showPopupPlacement nl nt nw cw ch).1 ∧
     0 ≤ (showPopupPlacement nl nt nw cw ch).2) ∧
    (nl + nw + 12 + 480 ≤ cw →
      (showPopupPlacement nl nt nw cw ch).1 = nl + nw + 12) ∧
    (cw < nl + nw + 12 + 480 → 490 ≤ nl →
      (showPopupPlacement nl nt nw cw ch).1 = nl - 490) ∧
    (cw < nl + nw + 12 + 480 → nl < 490 →
      (showPopupPlacement nl nt nw cw ch).1 = nl) ∧
    (nt + 400 ≤ ch → (showPopupPlacement nl nt nw cw ch).2 = nt) ∧
    (ch < nt + 400 → 410 ≤ ch →
      (showPopupPlacement nl nt nw cw ch).2 = ch - 410) ∧
    (ch < nt + 400 → ch < 410 →
      (showPopupPlacement nl nt nw cw ch).2 = 0) ∧
    (cw = 500 → nl = 450 → (showPopupPlacement nl nt nw cw ch).1 ≤ 500) := by
  simp only [showPopupPlacement]
  refine ⟨⟨?_, ?_⟩, ?_, ?_, ?_, ?_, ?_, ?_, ?_⟩ <;>
    · intros
      split_ifs <;> linarith

/-! ## Theorems: listing search and filter -/


def baseEp : Endpoint :=
  { id := "e0", method := "GET", path := "/x", title := "T", summary := "s",
    descriptionLong := none, tag := "Tag", subcategory := "Sub", auth := none,
    complexity := none, sourceFile := none, sourceLine := none, pathParams := [],
    queryParams := [], requestBody := [], responseFields := [],
    responseStatus := none, statusCodes := [] }

lemma containsSeq_nil (l : List Char) : containsSeq [] l = true := by
  cases l <;> simp [containsSeq, matchHere]

theorem C9_search_filter_amended (mf q : String) (ep : Endpoint) :
    pageMatches mf q ep = true ↔
      ((mf = "All" ∨ ep.method = mf) ∧
       strContains (haystackOf ep) (toLowerStr (stripStr q)) = true) := by
  unfold pageMatches matchesRecord
  by_cases hm : mf ≠ "All" ∧ ep.method ≠ mf
  · rw [if_pos hm]
    constructor
    · intro hfalse
      exact absurd hfalse (by decide)
    · rintro ⟨hd, -⟩
      rcases hd with h | h
      · exact absurd h hm.1
      · exact absurd h hm.2
  · rw [if_neg hm]
    have hd : mf = "All" ∨ ep.method = mf := by tauto
    by_cases hq : toLowerStr (stripStr q) ≠ ""
    · rw [if_pos hq]
      exact ⟨fun hs => ⟨hd, hs⟩, fun hh => hh.2⟩
    · rw [if_neg hq]
      push_neg at hq
      rw [hq]
      constructor
      · intro _
        refine ⟨hd, ?_⟩
        unfold strContains
        have he : ("" : String).data = [] := rfl
        rw [he, containsSeq_nil]
      · intro _
        rfl

theorem C9_cex_substring_across_fields :
    matchesSpecConcat "All" "ab"
        { baseEp with path := "/a", title := "b", summary := "",
                      descriptionLong := none } = true ∧
    pageMatches "All" "ab"
        { baseEp with path := "/a", title := "b", summary := "",
                      descriptionLong := none } = false :=
  ⟨rfl, rfl⟩

/-! ## Theorems: route generator -/


lemma dictInsert_fresh {α : Type} (d : List (String × α)) (k : String) (v : α)
    (h : ∀ p ∈ d, p.1 ≠ k) : dictInsert d k v = d ++ [(k, v)] := by
  unfold dictInsert
  rw [if_neg]
  simp only [List.any_eq_true, beq_iff_eq, not_exists]
  intro p hp
  exact h p hp.1 hp.2

lemma build_foldl_fst (catalog : List Endpoint)
    (acc : List PageHandle × List (String × PageHandle)) :
    (catalog.foldl buildStep acc).1 = acc.1 ++ catalog.map mkPageHandle := by
  induction catalog generalizing acc with
  | nil => simp
  | cons e l ih =>
      rw [List.foldl_cons, ih]
      simp [buildStep]

lemma build_foldl_snd (catalog : List Endpoint)
    (acc : List PageHandle × List (String × PageHandle))
    (hfresh : ∀ ep ∈ catalog, ∀ p ∈ acc.2, p.1 ≠ ep.id)
    (hnodup : (catalog.map Endpoint.id).Nodup) :
    (catalog.foldl buildStep acc).2
      = acc.2 ++ catalog.map (fun ep => (ep.id, mkPageHandle ep)) := by
  induction catalog generalizing acc with
  | nil => simp
  | cons e l ih =>
      have hpair : (∀ x ∈ l, ¬ x.id = e.id) ∧ (l.map Endpoint.id).Nodup := by
        simpa using hnodup
      rw [List.foldl_cons]
      have hstep : (buildStep acc e).2 = acc.2 ++ [(e.id, mkPageHandle e)] := by
        simp only [buildStep]
        exact dictInsert_fresh acc.2 e.id (mkPageHandle e)
          (fun p hp => hfresh e (List.mem_cons_self e l) p hp)
      rw [ih (buildStep acc e) ?hf hpair.2]
      · rw [hstep]
        simp
      case hf =>
        intro ep hep p hp
        rw [hstep] at hp
        rcases List.mem_append.mp hp with hin | hone
        · exact hfresh ep (List.mem_cons_of_mem e hep) p hin
        · have hpe : p = (e.id, mkPageHandle e) := by simpa using hone
          rw [hpe]
          show e.id ≠ ep.id
          intro hcontr
          exact hpair.1 ep hep hcontr.symm

lemma dictLookup_mapped (catalog : List Endpoint) (ep : Endpoint)
    (hmem : ep ∈ catalog) (hnodup : (catalog.map Endpoint.id).Nodup) :
    dictLookup (catalog.map (fun e => (e.id, mkPageHandle e))) ep.id
      = some (mkPageHandle ep) := by
  induction catalog with
  | nil => cases hmem
  | cons e l ih =>
      have hpair : (∀ x ∈ l, ¬ x.id = e.id) ∧ (l.map Endpoint.id).Nodup := by
        simpa using hnodup
      rcases List.mem_cons.mp hmem with heq | htail
      · subst heq
        simp [dictLookup, List.find?]
      · have hne : (e.id == ep.id) = false :=
          beq_eq_false_iff_ne.mpr (fun hcontr => hpair.1 ep htail hcontr.symm)
        simp only [List.map_cons, dictLookup, List.find?, hne]
        exact ih htail hpair.2

lemma get_endpoint_by_id_of_mem (catalog : List Endpoint) (ep : Endpoint)
    (hmem : ep ∈ catalog) (hnodup : (catalog.map Endpoint.id).Nodup) :
    get_endpoint_by_id catalog ep.id = some ep := by
  induction catalog with
  | nil => cases hmem
  | cons e l ih =>
      have hpair : (∀ x ∈ l, ¬ x.id = e.id) ∧ (l.map Endpoint.id).Nodup := by
        simpa using hnodup
      rcases List.mem_cons.mp hmem with heq | htail
      · subst heq
        simp [get_endpoint_by_id, List.find?]
      · have hne : (e.id == ep.id) = false :=
          beq_eq_false_iff_ne.mpr (fun hcontr => hpair.1 ep htail hcontr.symm)
        simp only [get_endpoint_by_id, List.find?, hne]
        exact ih htail hpair.2

lemma get_endpoint_by_id_none (catalog : List Endpoint) (eid : String)
    (h : ∀ e ∈ catalog, e.id ≠ eid) : get_endpoint_by_id catalog eid = none := by
  unfold get_endpoint_by_id
  rw [List.find?_eq_none]
  intro e he
  simpa using h e he



theorem C1_build_endpoint_pages (catalog : List Endpoint)
    (hnodup : (catalog.map Endpoint.id).Nodup) :
    (build_endpoint_pages catalog).1 = catalog.map mkPageHandle ∧
    ((build_endpoint_pages catalog).2).map Prod.fst = catalog.map Endpoint.id ∧
    (∀ ep ∈ catalog,
       dictLookup (build_endpoint_pages catalog).2 ep.id = some (mkPageHandle ep) ∧
       (mkPageHandle ep).urlPath = "ep-" ++ ep.id ∧
       invokePage (mkPageHandle ep) catalog = pageContentFor catalog ep) := by
  have hsnd : (build_endpoint_pages catalog).2
      = catalog.map (fun ep => (ep.id, mkPageHandle ep)) := by
    have := build_foldl_snd catalog ([], []) (by intro ep hep p hp; cases hp) hnodup
    simpa [build_endpoint_pages] using this
  refine ⟨?_, ?_, ?_⟩
  · have := build_foldl_fst catalog ([], [])
    simpa [build_endpoint_pages] using this
  · rw [hsnd, List.map_map]
    rfl
  · intro ep hep
    refine ⟨?_, rfl, ?_⟩
    · rw [hsnd]
      exact dictLookup_mapped catalog ep hep hnodup
    · unfold invokePage
      have : get_endpoint_by_id catalog (mkPageHandle ep).epId = some ep :=
        get_endpoint_by_id_of_mem catalog ep hep hnodup
      rw [this]

theorem C2_page_fn_resolution (pg : PageHandle) (catalog : List Endpoint) :
    ((∀ e ∈ catalog, e.id ≠ pg.epId) → invokePage pg catalog = .notFound) ∧
    (∀ ep, get_endpoint_by_id catalog pg.epId = some ep →
       invokePage pg catalog = pageContentFor catalog ep) ∧
    (∀ t u, invokePage { epId := pg.epId, title := t, urlPath := u } catalog
       = invokePage pg catalog) := by
  refine ⟨?_, ?_, ?_⟩
  · intro habs
    unfold invokePage
    rw [get_endpoint_by_id_none catalog pg.epId habs]
  · intro ep hep
    unfold invokePage
    rw [hep]
  · intro t u
    rfl

theorem C1_build_endpoint_pages_witness :
    dictLookup (build_endpoint_pages [baseEp]).2 baseEp.id = some (mkPageHandle baseEp) :=
  ((C1_build_endpoint_pages [baseEp] (by decide)).2.2 baseEp (by decide)).1

theorem C2_page_fn_resolution_witness :
    invokePage (mkPageHandle baseEp) [] = .notFound :=
  (C2_page_fn_resolution (mkPageHandle baseEp) []).1 (by simp)

/-! ## Theorems: schema renderer -/


lemma renderBodyRow_some (r : List Field) (h : 2 ≤ r.length) :
    ∃ row, renderBodyRow r = some row := by
  match r with
  | [] => simp at h
  | [a] => simp at h
  | [a, b] => exact ⟨_, rfl⟩
  | [a, b, c] => exact ⟨_, rfl⟩
  | [a, b, c, d] => exact ⟨_, rfl⟩
  | a :: b :: c :: d :: e :: m =>
      obtain ⟨x, hx⟩ := Option.isSome_iff_exists.mp
        (List.getLast?_isSome.mpr (by simp : a :: b :: c :: d :: e :: m ≠ []))
      refine ⟨(cellText a, cellText b, "-", cellText x), ?_⟩
      simp [renderBodyRow, hx]

lemma renderBodyRows_some (l : List (List Field)) (h : ∀ r ∈ l, 2 ≤ r.length) :
    ∃ rows, renderBodyRows l = some rows ∧ rows.length = l.length := by
  induction l with
  | nil => exact ⟨[], rfl, rfl⟩
  | cons r rs ih =>
      obtain ⟨row, hrow⟩ := renderBodyRow_some r (h r (List.mem_cons_self r rs))
      obtain ⟨rows, hrows, hlen⟩ := ih (fun x hx => h x (List.mem_cons_of_mem r hx))
      refine ⟨row :: rows, ?_, by simp [hlen]⟩
      simp [renderBodyRows, hrow, hrows]

lemma mem_descBlock (ep : Endpoint) (f : Frag) :
    f ∈ descBlock ep ↔
      descOf ep ≠ "" ∧ (f = .sectionHeading "Description" ∨ f = .mdBody (descOf ep)) := by
  unfold descBlock
  split_ifs with h <;> simp [h]

lemma mem_pathParamsBlock (ep : Endpoint) (f : Frag) :
    f ∈ pathParamsBlock ep ↔
      ep.pathParams ≠ [] ∧
        (f = .sectionHeading "Path Parameters" ∨ f = .paramsTable "path" ep.pathParams) := by
  unfold pathParamsBlock
  split_ifs with h <;> simp [h]

lemma mem_queryParamsBlock (ep : Endpoint) (f : Frag) :
    f ∈ queryParamsBlock ep ↔
      ep.queryParams ≠ [] ∧
        (f = .sectionHeading "Query Parameters" ∨ f = .paramsTable "query" ep.queryParams) := by
  unfold queryParamsBlock
  split_ifs with h <;> simp [h]

lemma mem_bodyBlock (ep : Endpoint) (rows : List (String × String × String × String)) (f : Frag) :
    f ∈ bodyBlock ep rows ↔
      ep.requestBody ≠ [] ∧
        (f = .sectionHeading "Request Body" ∨ f = .bodyTable rows) := by
  unfold bodyBlock
  split_ifs with h <;> simp [h]

lemma mem_responseBlock (ep : Endpoint) (f : Frag) :
    f ∈ responseBlock ep ↔
      ep.responseFields ≠ [] ∧
        (f = .responseHeading (ep.responseStatus.getD 200) ∨
         f = .paramsTable "response" ep.responseFields) := by
  unfold responseBlock
  split_ifs with h <;> simp [h]

lemma mem_statusBlock (ep : Endpoint) (f : Frag) :
    f ∈ statusBlock ep ↔
      ep.statusCodes ≠ [] ∧
        (f = .sectionHeading "Status Codes" ∨ f = .statusTable (sortByCode ep.statusCodes)) := by
  unfold statusBlock
  split_ifs with h <;> simp [h]

lemma mem_relatedBlock (catalog : List Endpoint) (ep : Endpoint) (f : Frag) :
    f ∈ relatedBlock catalog ep ↔
      ep.complexity.getD "simple" = "complex" ∧ relatedOf catalog ep ≠ [] ∧
        (f = .sectionHeading "Related Endpoints" ∨
         ∃ r ∈ relatedOf catalog ep, f = .relatedItem r.method r.path r.title) := by
  simp only [relatedBlock]
  split_ifs with h1 h2
  · simp only [List.mem_cons, List.mem_map, h1, h2, ne_eq, not_false_eq_true, true_and]
    constructor
    · rintro (hh | ⟨r, hr, he⟩)
      · exact Or.inl hh
      · exact Or.inr ⟨r, hr, he.symm⟩
    · rintro (hh | ⟨r, hr, he⟩)
      · exact Or.inl hh
      · exact Or.inr ⟨r, hr, he.symm⟩
  · simp [h1, h2]
  · simp [h1]



theorem C7_request_body_tolerance (n t d : String) (b : Bool) (l : List (List Field)) :
    renderBodyRow [.str n, .str t, .booly b, .str d]
      = some (n, t, if b then "Yes" else "No", d) ∧
    renderBodyRow [.str n, .str t, .str d] = some (n, t, "-", d) ∧
    ((∀ r ∈ l, 2 ≤ r.length) →
       ∃ rows, renderBodyRows l = some rows ∧ rows.length = l.length) := by
  refine ⟨?_, rfl, fun h => renderBodyRows_some l h⟩
  simp [renderBodyRow, cellText, truthy]

theorem C7_request_body_tolerance_witness :
    renderBodyRow [.str "x", .str "string", .booly true, .str "field x"]
      = some ("x", "string", "Yes", "field x") ∧
    ∃ rows, renderBodyRows [[Field.str "x", .str "string", .str "field x"]] = some rows
      ∧ rows.length = 1 := by
  obtain ⟨h4, h3, hmap⟩ :=
    C7_request_body_tolerance "x" "string" "field x" true
      [[Field.str "x", .str "string", .str "field x"]]
  exact ⟨h4, hmap (by decide)⟩

theorem C6_section_suppression (catalog : List Endpoint) (ep : Endpoint)
    (hwf : ∀ r ∈ ep.requestBody, 2 ≤ r.length) :
    ∃ frags, render_endpoint_detail catalog ep = some frags ∧
      (Frag.sectionHeading "Description" ∈ frags ↔ descOf ep ≠ "") ∧
      (Frag.sectionHeading "Path Parameters" ∈ frags ↔ ep.pathParams ≠ []) ∧
      (Frag.sectionHeading "Query Parameters" ∈ frags ↔ ep.queryParams ≠ []) ∧
      (Frag.sectionHeading "Request Body" ∈ frags ↔ ep.requestBody ≠ []) ∧
      ((∃ s, Frag.responseHeading s ∈ frags) ↔ ep.responseFields ≠ []) ∧
      (Frag.sectionHeading "Status Codes" ∈ frags ↔ ep.statusCodes ≠ []) ∧
      (Frag.sectionHeading "Related Endpoints" ∈ frags ↔
         (ep.complexity.getD "simple" = "complex" ∧ relatedOf catalog ep ≠ [])) ∧
      (∀ rows, Frag.paramsTable "query" rows ∈ frags ↔
         (ep.queryParams ≠ [] ∧ rows = ep.queryParams)) := by
  obtain ⟨rows, hrows, hlen⟩ := renderBodyRows_some ep.requestBody hwf
  refine ⟨[Frag.backButton, .pathHeader ep.method ep.path, .titleLine ep.title,
           .metaRow ep.auth (provText ep), .divider]
      ++ descBlock ep ++ pathParamsBlock ep ++ queryParamsBlock ep
      ++ bodyBlock ep rows ++ responseBlock ep ++ statusBlock ep
      ++ relatedBlock catalog ep, ?_, ?_, ?_, ?_, ?_, ?_, ?_, ?_, ?_⟩
  · unfold render_endpoint_detail
    rw [hrows]
  · simp +decide [List.mem_append, mem_descBlock, mem_pathParamsBlock,
      mem_queryParamsBlock, mem_bodyBlock, mem_responseBlock, mem_statusBlock,
      mem_relatedBlock]
  · simp +decide [List.mem_append, mem_descBlock, mem_pathParamsBlock,
      mem_queryParamsBlock, mem_bodyBlock, mem_responseBlock, mem_statusBlock,
      mem_relatedBlock]
  · simp +decide [List.mem_append, mem_descBlock, mem_pathParamsBlock,
      mem_queryParamsBlock, mem_bodyBlock, mem_responseBlock, mem_statusBlock,
      mem_relatedBlock]
  · simp +decide [List.mem_append, mem_descBlock, mem_pathParamsBlock,
      mem_queryParamsBlock, mem_bodyBlock, mem_responseBlock, mem_statusBlock,
      mem_relatedBlock]
  · simp +decide [List.mem_append, mem_descBlock, mem_pathParamsBlock,
      mem_queryParamsBlock, mem_bodyBlock, mem_responseBlock, mem_statusBlock,
      mem_relatedBlock]
  · simp +decide [List.mem_append, mem_descBlock, mem_pathParamsBlock,
      mem_queryParamsBlock, mem_bodyBlock, mem_responseBlock, mem_statusBlock,
      mem_relatedBlock]
  · simp +decide [List.mem_append, mem_descBlock, mem_pathParamsBlock,
      mem_queryParamsBlock, mem_bodyBlock, mem_responseBlock, mem_statusBlock,
      mem_relatedBlock]
  · intro rows2
    simp +decide [List.mem_append, mem_descBlock, mem_pathParamsBlock,
      mem_queryParamsBlock, mem_bodyBlock, mem_responseBlock, mem_statusBlock,
      mem_relatedBlock]



theorem C6_section_suppression_witness :
    ∃ frags, render_endpoint_detail [] baseEp = some frags ∧
      (Frag.sectionHeading "Query Parameters" ∈ frags ↔ baseEp.queryParams ≠ []) := by
  obtain ⟨frags, hf, _, _, hq, _⟩ := C6_section_suppression [] baseEp (by decide)
  exact ⟨frags, hf, hq⟩

def epA : Endpoint :=
  { baseEp with id := "A", method := "GET", path := "/a", title := "Endpoint A",
                tag := "Meetings", subcategory := "Analysis", complexity := some "complex" }

def epB : Endpoint :=
  { baseEp with id := "B", method := "POST", path := "/b", title := "Endpoint B",
                tag := "Meetings", subcategory := "Analysis", complexity := some "simple" }

def epC : Endpoint :=
  { baseEp with id := "C", method := "POST", path := "/c", title := "Endpoint C",
                tag := "Meetings", subcategory := "Analysis", complexity := some "complex" }

def epD : Endpoint :=
  { baseEp with id := "D", method := "GET", path := "/d", title := "Endpoint D",
                tag := "Meetings", subcategory := "Other", complexity := some "complex" }

/-- The catalog of the related-endpoints example: three records sharing
tag and subcategory with ids A (complex), B (simple), C (complex), plus a
record D with a different subcategory. -/
def exampleCatalog : List Endpoint := [epA, epB, epC, epD]

/-- The related-endpoints entries of a rendered fragment list, in order. -/
def relatedItemsOf (frags : List Frag) : List (String × String × String) :=
  frags.filterMap (fun f =>
    match f with
    | .relatedItem m p t => some (m, p, t)
    | _ => none)

theorem C8_cex_simple_record_is_listed :
    Frag.relatedItem "POST" "/b" "Endpoint B"
      ∈ (render_endpoint_detail exampleCatalog epA).getD [] := by decide

lemma relatedItemsOf_nil_of_no_related (frags : List Frag)
    (h : ∀ f ∈ frags, ∀ m p t, f ≠ .relatedItem m p t) :
    relatedItemsOf frags = [] := by
  unfold relatedItemsOf
  rw [List.filterMap_eq_nil_iff]
  intro f hf
  match f with
  | .relatedItem m p t => exact absurd rfl (h _ hf m p t)
  | .backButton => rfl
  | .pathHeader m p => rfl
  | .titleLine t => rfl
  | .metaRow a p => rfl
  | .divider => rfl
  | .sectionHeading s => rfl
  | .mdBody t => rfl
  | .paramsTable k r => rfl
  | .bodyTable r => rfl
  | .responseHeading s => rfl
  | .statusTable r => rfl

lemma filterMap_relatedItems (l : List Endpoint) :
    relatedItemsOf (l.map fun r => Frag.relatedItem r.method r.path r.title)
      = l.map fun r => (r.method, r.path, r.title) := by
  induction l with
  | nil => rfl
  | cons a l ih =>
      simp only [List.map_cons, relatedItemsOf, List.filterMap_cons] at *
      rw [ih]

theorem C8_related_endpoints_amended (catalog : List Endpoint) (ep : Endpoint)
    (hwf : ∀ r ∈ ep.requestBody, 2 ≤ r.length)
    (hcplx : ep.complexity.getD "simple" = "complex") :
    (∃ frags, render_endpoint_detail catalog ep = some frags ∧
       relatedItemsOf frags
         = (relatedOf catalog ep).map (fun r => (r.method, r.path, r.title))) ∧
    (∀ r, r ∈ relatedOf catalog ep ↔
       (r ∈ catalog ∧ r.tag = ep.tag ∧ r.subcategory = ep.subcategory ∧ r.id ≠ ep.id)) ∧
    relatedItemsOf ((render_endpoint_detail exampleCatalog epA).getD [])
      = [("POST", "/b", "Endpoint B"), ("POST", "/c", "Endpoint C")] := by
  obtain ⟨rows, hrows, hlen⟩ := renderBodyRows_some ep.requestBody hwf
  refine ⟨⟨[Frag.backButton, .pathHeader ep.method ep.path, .titleLine ep.title,
           .metaRow ep.auth (provText ep), .divider]
      ++ descBlock ep ++ pathParamsBlock ep ++ queryParamsBlock ep
      ++ bodyBlock ep rows ++ responseBlock ep ++ statusBlock ep
      ++ relatedBlock catalog ep, ?_, ?_⟩, ?_, ?_⟩
  · unfold render_endpoint_detail
    rw [hrows]
  · have hbase : relatedItemsOf [Frag.backButton, .pathHeader ep.method ep.path,
        .titleLine ep.title, .metaRow ep.auth (provText ep), .divider] = [] := rfl
    have hdesc : relatedItemsOf (descBlock ep) = [] := by
      apply relatedItemsOf_nil_of_no_related
      intro f hf m p t
      rw [mem_descBlock] at hf
      rcases hf.2 with h | h <;> subst h <;> simp
    have hpp : relatedItemsOf (pathParamsBlock ep) = [] := by
      apply relatedItemsOf_nil_of_no_related
      intro f hf m p t
      rw [mem_pathParamsBlock] at hf
      rcases hf.2 with h | h <;> subst h <;> simp
    have hqp : relatedItemsOf (queryParamsBlock ep) = [] := by
      apply relatedItemsOf_nil_of_no_related
      intro f hf m p t
      rw [mem_queryParamsBlock] at hf
      rcases hf.2 with h | h <;> subst h <;> simp
    have hbb : relatedItemsOf (bodyBlock ep rows) = [] := by
      apply relatedItemsOf_nil_of_no_related
      intro f hf m p t
      rw [mem_bodyBlock] at hf
      rcases hf.2 with h | h <;> subst h <;> simp
    have hrb : relatedItemsOf (responseBlock ep) = [] := by
      apply relatedItemsOf_nil_of_no_related
      intro f hf m p t
      rw [mem_responseBlock] at hf
      rcases hf.2 with h | h <;> subst h <;> simp
    have hsb : relatedItemsOf (statusBlock ep) = [] := by
      apply relatedItemsOf_nil_of_no_related
      intro f hf m p t
      rw [mem_statusBlock] at hf
      rcases hf.2 with h | h <;> subst h <;> simp
    have hrel : relatedItemsOf (relatedBlock catalog ep)
        = (relatedOf catalog ep).map (fun r => (r.method, r.path, r.title)) := by
      simp only [relatedBlock]
      rw [if_pos hcplx]
      split_ifs with h2
      · have hdrop : relatedItemsOf (Frag.sectionHeading "Related Endpoints" ::
            (relatedOf catalog ep).map (fun r => Frag.relatedItem r.method r.path r.title))
            = relatedItemsOf ((relatedOf catalog ep).map
                (fun r => Frag.relatedItem r.method r.path r.title)) := by
          simp [relatedItemsOf, List.filterMap_cons]
        rw [hdrop]
        exact filterMap_relatedItems (relatedOf catalog ep)
      · push_neg at h2
        rw [h2]
        rfl
    simp only [relatedItemsOf, List.filterMap_append] at *
    rw [hbase, hdesc, hpp, hqp, hbb, hrb, hsb, hrel]
    simp
  · intro r
    simp only [relatedOf, List.mem_filter, Bool.and_eq_true, beq_iff_eq, bne_iff_ne, ne_eq]
    tauto
  · decide

/-! ## Witnesses at concrete inputs -/


theorem C3_edgePoint_boundary_witness :
    edgePoint 100 100 40 20 200 100 = (120, 100) :=
  (C3_edgePoint_boundary 100 100 40 20 200 100 (by norm_num) (by norm_num)).2

theorem C10_edgePoint_division_safety_witness :
    (|(edgePoint 100 100 40 20 200 100).1 - 100| = 40 / 2 ∧
     |(edgePoint 100 100 40 20 200 100).2 - 100| ≤ 20 / 2) ∨
    (|(edgePoint 100 100 40 20 200 100).2 - 100| = 20 / 2 ∧
     |(edgePoint 100 100 40 20 200 100).1 - 100| ≤ 40 / 2) :=
  ((C10_edgePoint_division_safety 100 100 40 20 200 100 (by norm_num) (by norm_num)).1
      (by simp)).2.2

theorem C4_hover_intent_witness :
    runTrace [(0, .enterNode 0), (10, .leaveNode), (100, .enterNode 0)]
      = { hoverNode := some 0, hoverPopup := false, activePopup := some 0,
          timers := [], hideCount := 0 } ∧
    runTrace [(0, .enterNode 0), (10, .leaveNode)]
      = { hoverNode := none, hoverPopup := false, activePopup := none,
          timers := [], hideCount := 1 } := by
  obtain ⟨⟨hre, hrp, hhide⟩, hstale⟩ :=
    C4_hover_intent 0 10 100 initDiag (by decide) (by decide) (by decide)
  exact ⟨hre, hhide⟩

theorem C5_popup_placement_witness :
    (showPopupPlacement 450 30 130 500 620).1 ≤ 500 :=
  (C5_popup_placement 450 30 130 500 620 (by norm_num) (by norm_num)
      (by norm_num)).2.2.2.2.2.2.2 (by norm_num) (by norm_num)

theorem C8_related_endpoints_amended_witness :
    relatedItemsOf ((render_endpoint_detail exampleCatalog epA).getD [])
      = [("POST", "/b", "Endpoint B"), ("POST", "/c", "Endpoint C")] :=
  (C8_related_endpoints_amended exampleCatalog epA (by decide) (by decide)).2.2

end IpmDoc
